import Mathlib

/-
  Verification of the OneAuth bridge (cli/azd/pkg/oneauth/bridge/bridge.cpp and
  bridge.h) against its natural-language specification.

  The embedding models the bridge's authentication orchestration as pure Lean
  functions over an explicit provider environment: the asynchronous OneAuth
  callbacks are represented by optional (fire-delay, result) pairs, the shared
  std::promise by a list of completion events targeting a single cell (cell 0,
  since the code allocates exactly one promise per Authenticate call), and the
  win32 message pump by a recursive function over the list of host message
  arrival times.  Time is discrete (seconds).
-/

namespace OneAuthBridge

/-- Fixed deadline constant, bridge.cpp line 12: `const int timeoutSeconds = 60`. -/
def timeoutSeconds : Nat := 60

/-- Association status of an account with an application identity
(OneAuth `AssociationStatus`; the bridge only distinguishes `Associated`). -/
inductive AssociationStatus where
  | associated
  | notAssociated
  | unknown
deriving DecidableEq

/-- Provider-owned account snapshot: id, login name, display name, and the
association-status mapping from application identity to status. -/
structure Account where
  id : String
  loginName : String
  displayName : String
  associationStatus : List (String × AssociationStatus)
deriving DecidableEq

/-- Provider-owned credential snapshot: bearer token value and expiry instant
(seconds since epoch). -/
structure Credential where
  value : String
  expiresOn : Int
deriving DecidableEq

/-- OneAuth `AuthResult` as observed through the accessors the bridge uses:
`GetAccount`, `GetCredential`, `GetError` (each possibly absent). -/
structure AuthResult where
  account : Option Account
  credential : Option Credential
  error : Option String
deriving DecidableEq

/-- `WrappedAuthResult` (bridge.h lines 13-19): a value-initialized struct whose
pointer fields are NULL (`none`) unless set, and `expiresOn` is 0 unless set. -/
structure WrappedAuthResult where
  accountID : Option String
  errorDescription : Option String
  expiresOn : Int
  token : Option String
deriving DecidableEq

/-- `wrapAuthResult` (bridge.cpp lines 124-143): copies account id, credential
value and expiry, and error text out of an AuthResult, each field independently
and only when present. -/
def wrapAuthResult (ar : AuthResult) : WrappedAuthResult :=
  ⟨ar.account.map Account.id,
   ar.error,
   (match ar.credential with
    | some c => c.expiresOn
    | none => 0),
   ar.credential.map Credential.value⟩

/-- The fixed message of the interaction-required outcome, bridge.cpp line 174. -/
def interactionRequiredMessage : String :=
  "Interactive authentication is required. Run \x27azd auth login\x27"

/-- The fixed message of the interactive-timeout outcome, bridge.cpp line 209. -/
def loginTimeoutMessage : String := "timed out waiting for login"

/-- The outcome built at bridge.cpp lines 173-175 (value-initialized struct,
only `errorDescription` set). -/
def interactionRequiredResult : WrappedAuthResult :=
  ⟨none, some interactionRequiredMessage, 0, none⟩

/-- The outcome built at bridge.cpp lines 208-210 (value-initialized struct,
only `errorDescription` set). -/
def loginTimeoutResult : WrappedAuthResult :=
  ⟨none, some loginTimeoutMessage, 0, none⟩

/-- One completion event on the shared promise: (absolute fire time, result).
The promise is ready at time `t` when some issued callback has fired by `t`. -/
def cellReadyAt (fires : List (Nat × AuthResult)) (t : Nat) : Bool :=
  fires.any (fun f => decide (f.1 ≤ t))

/-- The value `future.get()` observes: the result of the earliest `set_value`
(first element wins ties, matching the listing order silent-before-interactive). -/
def firstFire : List (Nat × AuthResult) → Option (Nat × AuthResult)
  | [] => none
  | f :: rest =>
    match firstFire rest with
    | none => some f
    | some g => if g.1 < f.1 then some g else some f

/-- The win32 message pump, bridge.cpp lines 190-205.  `msgs` are the absolute
arrival times of the remaining host messages; `now` is the current time;
`ready`/`timedOut` are the loop variables of the source.  `GetMessage` blocks
until the next message arrives (forever — result `none` — if none ever does);
only after servicing a message are readiness and the deadline re-checked.
Returns `some (timedOut, exitTime)` when the loop exits. -/
def pumpLoop (fires : List (Nat × AuthResult)) (tStart : Nat)
    (msgs : List Nat) (now : Nat) (ready timedOut : Bool) : Option (Bool × Nat) :=
  if ready || timedOut then some (timedOut, now)
  else
    match msgs with
    | [] => none
    | m :: rest =>
      pumpLoop fires tStart rest (max now m)
        (cellReadyAt fires (max now m))
        (decide (timeoutSeconds ≤ max now m - tStart))

/-- A provider call observable at the OneAuth interface during Authenticate.
The `cell` argument records which promise a callback-taking call was bound to
(the source allocates exactly one promise, cell 0). -/
inductive ProviderCall where
  | readAccountById (id : String)
  | acquireCredentialSilently (account : Account) (cell : Nat)
  | signInInteractively (cell : Nat)
  | associateAccount (account : Account)
  | signInSilentlyProvider (cell : Nat)
deriving DecidableEq

/-- Environment of one Authenticate invocation: the provider's directory lookup,
the silent callback's fire delay and result (`none` = the callback never fires),
the interactive callback's fire delay (from interactive issue) and result, and
the host message arrival delays (from interactive issue). -/
structure Env where
  readAccountById : String → Option Account
  silentFire : Option (Nat × AuthResult)
  interactiveFire : Option (Nat × AuthResult)
  messages : List Nat

/-- The account found for the hint, bridge.cpp lines 157-159: the lookup runs
only when `accountID` is non-NULL and non-empty. -/
def silentAccount (env : Env) (accountID : Option String) : Option Account :=
  match accountID with
  | some s => if 0 < s.length then env.readAccountById s else none
  | none => none

/-- Completion events of the silent attempt: one event when the silent call was
issued (account found) and its callback eventually fires. -/
def silentFires (env : Env) (accountID : Option String) : List (Nat × AuthResult) :=
  match silentAccount env accountID, env.silentFire with
  | some _, some f => [f]
  | _, _ => []

/-- The time at which the silent wait (bridge.cpp line 163) returns: the fire
time capped at the deadline when the silent call was issued, otherwise 0. -/
def silentWaitEnd (env : Env) (accountID : Option String) : Nat :=
  match silentAccount env accountID, env.silentFire with
  | some _, some f => min f.1 timeoutSeconds
  | some _, none => timeoutSeconds
  | none, _ => 0

/-- Provider calls issued during the silent phase. -/
def silentCalls (env : Env) (accountID : Option String) : List ProviderCall :=
  match accountID with
  | none => []
  | some s =>
    if 0 < s.length then
      match env.readAccountById s with
      | some a => [ProviderCall.readAccountById s, ProviderCall.acquireCredentialSilently a 0]
      | none => [ProviderCall.readAccountById s]
    else []

/-- All completion events on the single shared promise once the interactive
call has been issued (bridge.cpp line 178 passes the same `callback`, hence the
same promise, as line 161): the silent event plus the interactive event. -/
def allFires (env : Env) (accountID : Option String) : List (Nat × AuthResult) :=
  silentFires env accountID ++
    (match env.interactiveFire with
     | some f => [(silentWaitEnd env accountID + f.1, f.2)]
     | none => [])

/-- Provider calls after the interactive call has been issued. -/
def interactiveCalls (env : Env) (accountID : Option String) : List ProviderCall :=
  silentCalls env accountID ++ [ProviderCall.signInInteractively 0]

/-- Observable run of one Authenticate call: the returned outcome (`none` when
the call never returns, i.e. the pump blocks forever), the return time, the
time the interactive phase started (when it did), whether the timeout branch
was taken, the provider calls issued, and how many times `set_value` runs on
the single promise over the whole run (late completions included). -/
structure AuthRun where
  result : Option WrappedAuthResult
  returnTime : Option Nat
  interactiveStart : Option Nat
  timedOut : Bool
  calls : List ProviderCall
  cellCompletions : Nat
deriving DecidableEq

/-- The interactive phase, bridge.cpp lines 178-215: issue the interactive
sign-in bound to the same promise, check readiness once before pumping, pump
messages until ready or timed out, return the timeout outcome or the promise
value. -/
def interactivePhase (env : Env) (accountID : Option String) : AuthRun :=
  match pumpLoop (allFires env accountID) (silentWaitEnd env accountID)
      (env.messages.map (fun m => silentWaitEnd env accountID + m))
      (silentWaitEnd env accountID)
      (cellReadyAt (allFires env accountID) (silentWaitEnd env accountID)) false with
  | none =>
    ⟨none, none, some (silentWaitEnd env accountID), false,
      interactiveCalls env accountID, (allFires env accountID).length⟩
  | some (true, t) =>
    ⟨some loginTimeoutResult, some t, some (silentWaitEnd env accountID), true,
      interactiveCalls env accountID, (allFires env accountID).length⟩
  | some (false, t) =>
    match firstFire (allFires env accountID) with
    | some f =>
      ⟨some (wrapAuthResult f.2), some t, some (silentWaitEnd env accountID), false,
        interactiveCalls env accountID, (allFires env accountID).length⟩
    | none =>
      ⟨none, none, some (silentWaitEnd env accountID), false,
        interactiveCalls env accountID, (allFires env accountID).length⟩

/-- `Authenticate` (bridge.cpp lines 145-216): optional silent attempt with a
deadline-bounded wait, the readiness gate at line 169 (readiness only — the
value of a filled promise is not inspected), the allowPrompt gate, the
interactive phase, and `future.get()` wrapped by `wrapAuthResult`. -/
def authenticate (env : Env) (accountID : Option String) (allowPrompt : Bool) : AuthRun :=
  if cellReadyAt (silentFires env accountID) (silentWaitEnd env accountID) then
    match firstFire (silentFires env accountID) with
    | some f =>
      ⟨some (wrapAuthResult f.2), some (silentWaitEnd env accountID), none, false,
        silentCalls env accountID, (silentFires env accountID).length⟩
    | none =>
      ⟨none, none, none, false, silentCalls env accountID,
        (silentFires env accountID).length⟩
  else if allowPrompt = false then
    ⟨some interactionRequiredResult, some (silentWaitEnd env accountID), none, false,
      silentCalls env accountID, (silentFires env accountID).length⟩
  else interactivePhase env accountID

/-- Environment of one ListAccounts invocation: the time at which the discovery
callback reports `IsCompleted` (`none` = never), and the account directory that
`ReadAllAccounts` would return. -/
structure ListEnv where
  discoveryCompletes : Option Nat
  accounts : List Account

/-- One element of the `WrappedAccounts` array (the per-account view built at
bridge.cpp lines 90-116). -/
structure WrappedAccountView where
  id : String
  username : String
  displayName : String
  associations : List String
deriving DecidableEq

/-- `WrappedAccounts` as returned to the caller: the account array and the
optional error. -/
structure WrappedAccountsView where
  accounts : List WrappedAccountView
  err : Option String
deriving DecidableEq

/-- The fixed discovery-timeout message, bridge.cpp line 83. -/
def discoveryTimeoutMessage : String := "timed out waiting for account discovery"

/-- The associated-application list derived at bridge.cpp lines 97-105: the
application identities whose association status is exactly `Associated`. -/
def associatedWith (a : Account) : List String :=
  (a.associationStatus.filter
    (fun p => decide (p.2 = AssociationStatus.associated))).map (fun p => p.1)

/-- One account of the directory wrapped for the caller, bridge.cpp 92-115. -/
def wrapAccount (a : Account) : WrappedAccountView :=
  ⟨a.id, a.loginName, a.displayName, associatedWith a⟩

/-- `ListAccounts` (bridge.cpp lines 63-118): trigger discovery, wait up to the
fixed deadline for completion; on timeout return the zero-account result plus
the timeout error without reading the directory; on success read the full
directory.  The Bool records whether `ReadAllAccounts` was called. -/
def listAccounts (env : ListEnv) : WrappedAccountsView × Bool :=
  match env.discoveryCompletes with
  | some t =>
    if t ≤ timeoutSeconds then (⟨env.accounts.map wrapAccount, none⟩, true)
    else (⟨[], some discoveryTimeoutMessage⟩, false)
  | none => (⟨[], some discoveryTimeoutMessage⟩, false)

/-- Observable run of one SignInSilently call. -/
structure SilentRun where
  result : WrappedAuthResult
  isTimeout : Bool
  calls : List ProviderCall
deriving DecidableEq

/-- Timeout message of the modelled SignInSilently (the exact text is not in
the sources; the spec only fixes the error kind as Timeout). -/
def silentTimeoutMessage : String := "timed out waiting for sign-in"

/-- The timeout outcome of the modelled SignInSilently. -/
def silentTimeoutResult : WrappedAuthResult :=
  ⟨none, some silentTimeoutMessage, 0, none⟩

/-- Modelled from the spec: the definition of `SignInSilently` is not among the
sources (bridge.h lines 47-49 declare it; bridge.cpp does not define it).  Per
the spec section 4.4: a simplified single-step variant — issue the provider's
silent sign-in bound to a ResultCell, await with the fixed deadline, no
interactive fallback; timeout yields error kind Timeout. -/
def signInSilentlyModel (fire : Option (Nat × AuthResult)) : SilentRun :=
  match fire with
  | some f =>
    if f.1 ≤ timeoutSeconds then
      ⟨wrapAuthResult f.2, false, [ProviderCall.signInSilentlyProvider 0]⟩
    else ⟨silentTimeoutResult, true, [ProviderCall.signInSilentlyProvider 0]⟩
  | none => ⟨silentTimeoutResult, true, [ProviderCall.signInSilentlyProvider 0]⟩

/-- `logCallback` (bridge.cpp lines 14-21): the message is forwarded to the
host sink exactly when the identifiable-information flag is zero and the
module-level sink is non-empty.  The returned value is the message handed to
the sink (`none` = the sink is not invoked). -/
def logCallbackModel (message : String) (identifiableInformation : Int)
    (sinkRegistered : Bool) : Option String :=
  if identifiableInformation = 0 ∧ sinkRegistered = true then some message else none

/-- The sink-registration effect of `Startup` (bridge.cpp lines 23-55): when
OleInitialize fails, Startup returns early (line 28) without registering the
sink; otherwise line 33 assigns `globalLogCallback = logger` before
`OneAuth::Startup`, so the sink is registered (when the logger is non-NULL)
even when OneAuth startup later fails.  Returns (error, sinkRegistered). -/
def startupSinkModel (oleOk : Bool) (oneAuthError : Option String)
    (loggerNonNull : Bool) : Option String × Bool :=
  if oleOk = false then (some "OleInitialize failed", false)
  else
    match oneAuthError with
    | some e => (some e, loggerNonNull)
    | none => (none, loggerNonNull)

/-- Memory-level view of a `WrappedAuthResult` for the deallocation entry
points: each pointer field is the id of a string allocation or NULL. -/
structure CAuthResultMem where
  accountID : Option Nat
  errorDescription : Option Nat
  token : Option Nat
deriving DecidableEq

/-- The string allocations owned by a WrappedAuthResult (its non-NULL
strdup-allocated fields). -/
def ownedAuthStrings (r : CAuthResultMem) : List Nat :=
  r.accountID.toList ++ r.errorDescription.toList ++ r.token.toList

/-- `FreeWrappedAuthResult` (bridge.cpp lines 253-264): for NULL, nothing; for
non-NULL, `free` each string field (free(NULL) is a no-op, so only the owned
allocations are released) and delete the struct.  Returns the ids freed. -/
def freeWrappedAuthResult : Option CAuthResultMem → List Nat
  | none => []
  | some r => ownedAuthStrings r

/-- Memory-level view of one `WrappedAccount`: three string allocations and an
optional association array of string allocations. -/
structure CAccountMem where
  id : Nat
  username : Nat
  displayName : Nat
  associations : Option (List Nat)
deriving DecidableEq

/-- The string allocations owned by one account entry. -/
def ownedAccountStrings (a : CAccountMem) : List Nat :=
  [a.id, a.username, a.displayName] ++
    (match a.associations with
     | some l => l
     | none => [])

/-- Memory-level view of a `WrappedAccounts` (the `err` member is released
separately through `FreeWrappedError`, which the source never calls from
`FreeWrappedAccounts`). -/
structure CAccountsMem where
  accounts : List CAccountMem
deriving DecidableEq

/-- The string allocations owned by the account array. -/
def ownedAccountsStrings (s : CAccountsMem) : List Nat :=
  (s.accounts.map ownedAccountStrings).flatten

/-- `FreeWrappedAccounts` (bridge.cpp lines 230-251): for NULL, nothing; for
non-NULL, free each account's strings and, when the association array is
non-NULL, each association string, then delete the arrays and the struct. -/
def freeWrappedAccounts : Option CAccountsMem → List Nat
  | none => []
  | some s => ownedAccountsStrings s

/-- Memory-level view of a `WrappedError`. -/
structure CErrorMem where
  message : Option Nat
deriving DecidableEq

/-- The string allocation owned by a WrappedError. -/
def ownedErrorStrings (e : CErrorMem) : List Nat := e.message.toList

/-- `FreeWrappedError` (bridge.cpp lines 266-273): for NULL, nothing; for
non-NULL, free the message (a no-op when NULL) and delete the struct. -/
def freeWrappedError : Option CErrorMem → List Nat
  | none => []
  | some e => ownedErrorStrings e

/-- Consistency of a provider AuthResult (spec section 3): exactly one of
credential / error is present, and an account only alongside a credential. -/
def consistentResult (r : AuthResult) : Prop :=
  (r.credential.isSome = true ↔ r.error = none) ∧
    (r.account.isSome = true → r.credential.isSome = true)

/-- Consistency of a returned WrappedAuthResult: exactly one of token /
errorDescription is present, and an account id only alongside a token. -/
def consistentWrapped (w : WrappedAuthResult) : Prop :=
  (w.token.isSome = true ↔ w.errorDescription = none) ∧
    (w.accountID.isSome = true → w.token.isSome = true)

/-- All AuthResults the provider can deliver in an environment. -/
def envResults (env : Env) : List AuthResult :=
  (env.silentFire.toList ++ env.interactiveFire.toList).map Prod.snd

instance decConsistentResult (r : AuthResult) : Decidable (consistentResult r) := by
  unfold consistentResult
  infer_instance

instance decConsistentWrapped (w : WrappedAuthResult) : Decidable (consistentWrapped w) := by
  unfold consistentWrapped
  infer_instance

/-- A concrete associated account used in concrete runs. -/
def acct1 : Account :=
  ⟨"id1", "user@contoso.example", "User One",
    [("com.microsoft.azd", AssociationStatus.associated)]⟩

/-- A silent attempt result carrying an error (for the silent-failure runs). -/
def silentErrResult : AuthResult := ⟨some acct1, none, some "silent failure"⟩

/-- Environment where the hint matches and the silent callback fires with an
error after 5 seconds (well within the deadline). -/
def envC1 : Env :=
  ⟨fun s => if s = "id1" then some acct1 else none,
   some (5, silentErrResult), none, []⟩

/-- A successful interactive result. -/
def interactiveSuccessResult : AuthResult :=
  ⟨some acct1, some ⟨"tok2", 1700000100⟩, none⟩

/-- Environment with no hint match, where the interactive callback fires with a
success after 3 seconds and a host message arrives at 5 seconds. -/
def envC2 : Env := ⟨fun _ => none, none, some (3, interactiveSuccessResult), [5]⟩

/-- A silent success result whose callback fires only after the deadline. -/
def lateSilentResult : AuthResult := ⟨some acct1, some ⟨"tok1", 1700000000⟩, none⟩

/-- Environment where the silent callback fires late (at 100 s, after the 60 s
silent wait) and the interactive callback also fires (50 s after interactive
start), so both callbacks complete the one shared promise. -/
def envC3 : Env :=
  ⟨fun s => if s = "id1" then some acct1 else none,
   some (100, lateSilentResult), some (50, interactiveSuccessResult), [10, 50]⟩

/-- Environment where no callback ever fires and the only host message arrives
1000 seconds after the interactive phase starts. -/
def envC4 : Env := ⟨fun _ => none, none, none, [1000]⟩

/-- ListAccounts environment whose discovery never completes. -/
def listEnvTimeout : ListEnv := ⟨none, [acct1]⟩

/-- ListAccounts environment whose discovery completes at 2 seconds. -/
def listEnvOk : ListEnv := ⟨some 2, [acct1]⟩

theorem firstFire_mem {l : List (Nat × AuthResult)} {f : Nat × AuthResult}
    (h : firstFire l = some f) : f ∈ l := by
  induction l with
  | nil => simp [firstFire] at h
  | cons g rest ih =>
    rw [firstFire] at h
    cases hr : firstFire rest with
    | none =>
      rw [hr] at h
      simp at h
      simp [h]
    | some g2 =>
      rw [hr] at h
      by_cases hc : g2.1 < g.1
      · simp only [hc, if_true] at h
        simp at h
        exact List.mem_cons_of_mem g (ih (h ▸ hr))
      · simp only [hc, if_false] at h
        simp at h
        subst h
        exact List.mem_cons_self g rest

theorem firstFire_isSome {l : List (Nat × AuthResult)} {t : Nat}
    (h : cellReadyAt l t = true) : ∃ f, firstFire l = some f := by
  cases l with
  | nil => simp [cellReadyAt] at h
  | cons g rest =>
    rw [firstFire]
    cases firstFire rest with
    | none => exact ⟨g, rfl⟩
    | some g2 => by_cases hc : g2.1 < g.1 <;> simp [hc]

theorem pumpLoop_sound (fires : List (Nat × AuthResult)) (tStart : Nat) :
    ∀ (msgs : List Nat) (now : Nat) (timedOut : Bool),
      (timedOut = true → tStart + timeoutSeconds ≤ now) →
      ∀ res t,
        pumpLoop fires tStart msgs now (cellReadyAt fires now) timedOut = some (res, t) →
          (res = true → tStart + timeoutSeconds ≤ t) ∧
          (res = false → cellReadyAt fires t = true) := by
  intro msgs
  induction msgs with
  | nil =>
    intro now timedOut hInv res t h
    rw [pumpLoop] at h
    by_cases hc : (cellReadyAt fires now || timedOut) = true
    · rw [if_pos hc] at h
      simp at h
      obtain ⟨rfl, rfl⟩ := h
      refine ⟨fun hr => hInv hr, fun hr => ?_⟩
      subst hr
      simpa using hc
    · rw [if_neg hc] at h
      cases h
  | cons m rest ih =>
    intro now timedOut hInv res t h
    rw [pumpLoop] at h
    by_cases hc : (cellReadyAt fires now || timedOut) = true
    · rw [if_pos hc] at h
      simp at h
      obtain ⟨rfl, rfl⟩ := h
      refine ⟨fun hr => hInv hr, fun hr => ?_⟩
      subst hr
      simpa using hc
    · rw [if_neg hc] at h
      refine ih (max now m) (decide (timeoutSeconds ≤ max now m - tStart)) ?_ res t h
      intro hd
      have hle : timeoutSeconds ≤ max now m - tStart := of_decide_eq_true hd
      have ht : timeoutSeconds = 60 := rfl
      rcases Nat.le_total now m with hm | hm
      · rw [Nat.max_eq_right hm] at hle ⊢
        omega
      · rw [Nat.max_eq_left hm] at hle ⊢
        omega

theorem mem_allFires_results {env : Env} {accountID : Option String}
    {f : Nat × AuthResult} (h : f ∈ allFires env accountID) :
    f.2 ∈ envResults env := by
  rcases List.mem_append.mp h with h1 | h2
  · unfold silentFires at h1
    cases hsa : silentAccount env accountID with
    | none => rw [hsa] at h1; simp at h1
    | some a =>
      cases hsf : env.silentFire with
      | none => rw [hsa, hsf] at h1; simp at h1
      | some g =>
        rw [hsa, hsf] at h1
        simp at h1
        subst h1
        simp [envResults, hsf]
  · cases hif : env.interactiveFire with
    | none => rw [hif] at h2; simp at h2
    | some g =>
      rw [hif] at h2
      simp at h2
      rw [h2]
      simp [envResults, hif]

theorem mem_silentFires_allFires {env : Env} {accountID : Option String}
    {f : Nat × AuthResult} (h : f ∈ silentFires env accountID) :
    f ∈ allFires env accountID :=
  List.mem_append_left _ h

theorem wrapAuthResult_consistent {r : AuthResult} (h : consistentResult r) :
    consistentWrapped (wrapAuthResult r) := by
  obtain ⟨h1, h2⟩ := h
  unfold consistentWrapped wrapAuthResult
  refine ⟨?_, ?_⟩
  · simpa using h1
  · simpa using h2

theorem mem_associatedWith (a : Account) (appId : String) :
    appId ∈ associatedWith a ↔
      (appId, AssociationStatus.associated) ∈ a.associationStatus := by
  unfold associatedWith
  simp only [List.mem_map, List.mem_filter, decide_eq_true_eq]
  constructor
  · rintro ⟨p, ⟨hp, h2⟩, rfl⟩
    obtain ⟨x, y⟩ := p
    simp only at h2
    subst h2
    exact hp
  · intro h
    exact ⟨(appId, AssociationStatus.associated), ⟨h, rfl⟩, rfl⟩

/-- C7: a ListAccounts call whose discovery does not complete within the fixed
deadline returns zero accounts and a non-null timeout error without reading the
account directory; on success each returned account's association list contains
exactly the application identities whose status equals Associated. -/
theorem c7_list_accounts_discovery (env : ListEnv) :
    ((env.discoveryCompletes = none ∨
        (∀ t, env.discoveryCompletes = some t → timeoutSeconds < t)) →
      (listAccounts env).1.accounts = [] ∧
      (listAccounts env).1.err = some discoveryTimeoutMessage ∧
      (listAccounts env).2 = false) ∧
    (∀ t, env.discoveryCompletes = some t → t ≤ timeoutSeconds →
      (listAccounts env).2 = true ∧
      (listAccounts env).1.err = none ∧
      ∀ w ∈ (listAccounts env).1.accounts, ∃ a ∈ env.accounts,
        w = wrapAccount a ∧
        ∀ appId, appId ∈ w.associations ↔
          (appId, AssociationStatus.associated) ∈ a.associationStatus) := by
  constructor
  · intro h
    cases hd : env.discoveryCompletes with
    | none => simp [listAccounts, hd]
    | some t =>
      rcases h with h | h
      · rw [hd] at h; cases h
      · have hlt := h t hd
        have hn : ¬ t ≤ timeoutSeconds := by omega
        simp [listAccounts, hd, hn]
  · intro t hd hle
    have key : listAccounts env = (⟨env.accounts.map wrapAccount, none⟩, true) := by
      simp [listAccounts, hd, hle]
    rw [key]
    refine ⟨rfl, rfl, ?_⟩
    intro w hw
    simp only [List.mem_map] at hw
    obtain ⟨a, ha, rfl⟩ := hw
    exact ⟨a, ha, rfl, fun appId => mem_associatedWith a appId⟩

/-- C7 witness: a discovery that never completes and one that completes at 2
seconds, evaluated concretely. -/
theorem c7_list_accounts_discovery_witness :
    ((listAccounts listEnvTimeout).1.accounts = [] ∧
      (listAccounts listEnvTimeout).1.err = some discoveryTimeoutMessage ∧
      (listAccounts listEnvTimeout).2 = false) ∧
    ((listAccounts listEnvOk).2 = true ∧
      (listAccounts listEnvOk).1.err = none ∧
      ∀ w ∈ (listAccounts listEnvOk).1.accounts, ∃ a ∈ listEnvOk.accounts,
        w = wrapAccount a ∧
        ∀ appId, appId ∈ w.associations ↔
          (appId, AssociationStatus.associated) ∈ a.associationStatus) :=
  ⟨(c7_list_accounts_discovery listEnvTimeout).1 (Or.inl rfl),
   (c7_list_accounts_discovery listEnvOk).2 2 rfl (by decide)⟩

/-- C8: the modelled SignInSilently issues exactly one provider silent sign-in
bound to a ResultCell, never falls back to interactive sign-in, returns the
wrapped provider result when the callback fires within the fixed deadline, and
yields the Timeout outcome on deadline expiry. -/
theorem c8_sign_in_silently (fire : Option (Nat × AuthResult)) :
    (signInSilentlyModel fire).calls = [ProviderCall.signInSilentlyProvider 0] ∧
    (∀ c, ProviderCall.signInInteractively c ∉ (signInSilentlyModel fire).calls) ∧
    (∀ d r, fire = some (d, r) → d ≤ timeoutSeconds →
      (signInSilentlyModel fire).result = wrapAuthResult r ∧
      (signInSilentlyModel fire).isTimeout = false) ∧
    ((fire = none ∨ (∀ d r, fire = some (d, r) → timeoutSeconds < d)) →
      (signInSilentlyModel fire).isTimeout = true ∧
      (signInSilentlyModel fire).result = silentTimeoutResult) := by
  cases fire with
  | none =>
    refine ⟨rfl, by simp [signInSilentlyModel], ?_, ?_⟩
    · intro d r h
      exact Option.noConfusion h
    · intro _
      exact ⟨rfl, rfl⟩
  | some f =>
    obtain ⟨fd, fr⟩ := f
    by_cases hle : fd ≤ timeoutSeconds
    · refine ⟨?_, ?_, ?_, ?_⟩
      · simp [signInSilentlyModel, hle]
      · simp [signInSilentlyModel, hle]
      · intro d r h hd
        rw [Option.some.injEq, Prod.mk.injEq] at h
        obtain ⟨rfl, rfl⟩ := h
        simp [signInSilentlyModel, hle]
      · intro h
        rcases h with h | h
        · exact Option.noConfusion h
        · have := h fd fr rfl
          omega
    · refine ⟨?_, ?_, ?_, ?_⟩
      · simp [signInSilentlyModel, hle]
      · simp [signInSilentlyModel, hle]
      · intro d r h hd
        rw [Option.some.injEq, Prod.mk.injEq] at h
        obtain ⟨rfl, rfl⟩ := h
        exact absurd hd hle
      · intro _
        simp [signInSilentlyModel, hle]

/-- C8 witness: a callback firing at 5 seconds and a callback that never fires. -/
theorem c8_sign_in_silently_witness :
    ((signInSilentlyModel (some (5, interactiveSuccessResult))).result =
        wrapAuthResult interactiveSuccessResult ∧
      (signInSilentlyModel (some (5, interactiveSuccessResult))).isTimeout = false) ∧
    ((signInSilentlyModel none).isTimeout = true ∧
      (signInSilentlyModel none).result = silentTimeoutResult) :=
  ⟨(c8_sign_in_silently (some (5, interactiveSuccessResult))).2.2.1 5
      interactiveSuccessResult rfl (by decide),
   (c8_sign_in_silently none).2.2.2 (Or.inl rfl)⟩

/-- C9: each deallocation entry point is null-safe (a no-op on NULL), and on a
non-null argument frees every owned string and array allocation exactly once
(given the allocations are distinct, as strdup/new guarantee). -/
theorem c9_free_functions (r : CAuthResultMem) (s : CAccountsMem) (e : CErrorMem) :
    (freeWrappedAuthResult none = [] ∧ freeWrappedAccounts none = [] ∧
      freeWrappedError none = []) ∧
    ((ownedAuthStrings r).Nodup →
      ∀ x ∈ ownedAuthStrings r, (freeWrappedAuthResult (some r)).count x = 1) ∧
    ((ownedAccountsStrings s).Nodup →
      ∀ x ∈ ownedAccountsStrings s, (freeWrappedAccounts (some s)).count x = 1) ∧
    ((ownedErrorStrings e).Nodup →
      ∀ x ∈ ownedErrorStrings e, (freeWrappedError (some e)).count x = 1) := by
  refine ⟨⟨rfl, rfl, rfl⟩, ?_, ?_, ?_⟩
  · intro hnd x hx
    exact List.count_eq_one_of_mem hnd hx
  · intro hnd x hx
    exact List.count_eq_one_of_mem hnd hx
  · intro hnd x hx
    exact List.count_eq_one_of_mem hnd hx

/-- C9 witness: concrete structs with distinct allocation ids. -/
theorem c9_free_functions_witness :
    (freeWrappedAuthResult (some ⟨some 1, none, some 2⟩)).count 1 = 1 ∧
    (freeWrappedAccounts (some ⟨[⟨3, 4, 5, some [6, 7]⟩]⟩)).count 6 = 1 ∧
    (freeWrappedError (some ⟨some 8⟩)).count 8 = 1 :=
  ⟨(c9_free_functions ⟨some 1, none, some 2⟩ ⟨[]⟩ ⟨none⟩).2.1 (by decide) 1 (by decide),
   (c9_free_functions ⟨none, none, none⟩ ⟨[⟨3, 4, 5, some [6, 7]⟩]⟩ ⟨none⟩).2.2.1
      (by decide) 6 (by decide),
   (c9_free_functions ⟨none, none, none⟩ ⟨[]⟩ ⟨some 8⟩).2.2.2 (by decide) 8 (by decide)⟩

/-- C10: a provider log message is forwarded to the host sink exactly when its
identifiable-information flag is zero and a sink was registered at Startup
(Startup registers the sink only after OleInitialize succeeds and only when the
logger is non-null); flagged messages are never forwarded, and a forwarded
message is passed unmodified. -/
theorem c10_log_forwarding (message : String) (flag : Int)
    (oleOk loggerNonNull : Bool) (oneAuthError : Option String) :
    (logCallbackModel message flag ((startupSinkModel oleOk oneAuthError loggerNonNull).2)
        = some message ↔ (flag = 0 ∧ oleOk = true ∧ loggerNonNull = true)) ∧
    (flag ≠ 0 → ∀ sink : Bool, logCallbackModel message flag sink = none) ∧
    (∀ (sink : Bool) (m2 : String),
      logCallbackModel message flag sink = some m2 → m2 = message) := by
  refine ⟨?_, ?_, ?_⟩
  · unfold startupSinkModel logCallbackModel
    cases oleOk <;> cases loggerNonNull <;> rcases oneAuthError with _ | e <;>
      by_cases hf : flag = 0 <;> simp [hf]
  · intro h sink
    simp [logCallbackModel, h]
  · intro sink m2 h
    unfold logCallbackModel at h
    split at h
    · exact (Option.some.inj h).symm
    · cases h

/-- C10 witness: a zero-flag message after a successful Startup is forwarded; a
flagged message is not. -/
theorem c10_log_forwarding_witness :
    logCallbackModel "msg" 0 ((startupSinkModel true none true).2) = some "msg" ∧
    logCallbackModel "secret" 1 true = none :=
  ⟨(c10_log_forwarding "msg" 0 true true none).1.mpr ⟨rfl, rfl, rfl⟩,
   (c10_log_forwarding "secret" 1 true true none).2.1 (by decide) true⟩

theorem silent_ready_parts (env : Env) (accountID : Option String)
    (a : Account) (d : Nat) (r : AuthResult)
    (ha : silentAccount env accountID = some a)
    (hf : env.silentFire = some (d, r)) (hd : d ≤ timeoutSeconds) :
    silentFires env accountID = [(d, r)] ∧
    cellReadyAt (silentFires env accountID) (silentWaitEnd env accountID) = true ∧
    firstFire (silentFires env accountID) = some (d, r) := by
  have h1 : silentFires env accountID = [(d, r)] := by
    unfold silentFires
    rw [ha, hf]
  have h2 : silentWaitEnd env accountID = min d timeoutSeconds := by
    unfold silentWaitEnd
    rw [ha, hf]
  refine ⟨h1, ?_, ?_⟩
  · rw [h1, h2]
    simp [cellReadyAt]
    exact hd
  · rw [h1]
    rfl

theorem silent_not_ready (env : Env) (accountID : Option String)
    (h : silentAccount env accountID = none ∨ env.silentFire = none ∨
         (∀ d r, env.silentFire = some (d, r) → timeoutSeconds < d)) :
    cellReadyAt (silentFires env accountID) (silentWaitEnd env accountID) = false := by
  rcases h with h | h | h
  · have hnil : silentFires env accountID = [] := by
      unfold silentFires
      rw [h]
    simp [cellReadyAt, hnil]
  · have hnil : silentFires env accountID = [] := by
      unfold silentFires
      rw [h]
      cases silentAccount env accountID <;> rfl
    simp [cellReadyAt, hnil]
  · cases hsa : silentAccount env accountID with
    | none =>
      have hnil : silentFires env accountID = [] := by
        unfold silentFires
        rw [hsa]
      simp [cellReadyAt, hnil]
    | some a =>
      cases hsf : env.silentFire with
      | none =>
        have hnil : silentFires env accountID = [] := by
          unfold silentFires
          rw [hsa, hsf]
        simp [cellReadyAt, hnil]
      | some f =>
        obtain ⟨d, r⟩ := f
        have hlt := h d r hsf
        have h1 : silentFires env accountID = [(d, r)] := by
          unfold silentFires
          rw [hsa, hsf]
        have h2 : silentWaitEnd env accountID = min d timeoutSeconds := by
          unfold silentWaitEnd
          rw [hsa, hsf]
        rw [h1, h2]
        simp [cellReadyAt]
        exact hlt

theorem authenticate_ready (env : Env) (accountID : Option String)
    (allowPrompt : Bool) (f : Nat × AuthResult)
    (h2 : cellReadyAt (silentFires env accountID) (silentWaitEnd env accountID) = true)
    (h3 : firstFire (silentFires env accountID) = some f) :
    authenticate env accountID allowPrompt =
      ⟨some (wrapAuthResult f.2), some (silentWaitEnd env accountID), none, false,
        silentCalls env accountID, (silentFires env accountID).length⟩ := by
  simp [authenticate, h2, h3]

theorem authenticate_gate_noprompt (env : Env) (accountID : Option String)
    (h : cellReadyAt (silentFires env accountID) (silentWaitEnd env accountID) = false) :
    authenticate env accountID false =
      ⟨some interactionRequiredResult, some (silentWaitEnd env accountID), none, false,
        silentCalls env accountID, (silentFires env accountID).length⟩ := by
  simp [authenticate, h]

theorem authenticate_interactive (env : Env) (accountID : Option String)
    (h : cellReadyAt (silentFires env accountID) (silentWaitEnd env accountID) = false) :
    authenticate env accountID true = interactivePhase env accountID := by
  simp [authenticate, h]

theorem interactive_not_mem_silentCalls (env : Env) (accountID : Option String) :
    ∀ c, ProviderCall.signInInteractively c ∉ silentCalls env accountID := by
  intro c
  unfold silentCalls
  cases accountID with
  | none => simp
  | some s =>
    by_cases hl : 0 < s.length
    · cases hr : env.readAccountById s <;> simp [hl, hr]
    · simp [hl]

/-- C1 (counterexample): a silent attempt that completes within the deadline
with an error outcome is returned to the caller as exactly that error (the
readiness gate at bridge.cpp line 169 checks only whether the promise is
filled, not whether it holds a success), contradicting the claim that the
returned AuthOutcome is never the silent error. -/
theorem c1_silent_error_surfaced_counterexample :
    (authenticate envC1 (some "id1") true).result = some (wrapAuthResult silentErrResult) ∧
    (wrapAuthResult silentErrResult).errorDescription = some "silent failure" ∧
    (wrapAuthResult silentErrResult).token = none ∧
    ProviderCall.signInInteractively 0 ∉ (authenticate envC1 (some "id1") true).calls := by
  decide

/-- C1 (amended): the non-filled silent states — no hint, no account match, or
no callback within the deadline — are treated uniformly as fallback with the
specific reason discarded (with prompting disallowed they all yield the same
InteractionRequired outcome), but a silent attempt whose callback fires within
the deadline is returned directly, error outcomes included: such a silent error
is surfaced to the caller and no interactive call is made. -/
theorem c1_amended_silent_gate (env : Env) (accountID : Option String)
    (allowPrompt : Bool) :
    (∀ a d r, silentAccount env accountID = some a →
        env.silentFire = some (d, r) → d ≤ timeoutSeconds →
        (authenticate env accountID allowPrompt).result = some (wrapAuthResult r) ∧
        ProviderCall.signInInteractively 0 ∉ (authenticate env accountID allowPrompt).calls) ∧
    ((silentAccount env accountID = none ∨ env.silentFire = none ∨
        (∀ d r, env.silentFire = some (d, r) → timeoutSeconds < d)) →
      allowPrompt = false →
      (authenticate env accountID allowPrompt).result = some interactionRequiredResult) := by
  constructor
  · intro a d r ha hf hd
    obtain ⟨h1, h2, h3⟩ := silent_ready_parts env accountID a d r ha hf hd
    rw [authenticate_ready env accountID allowPrompt (d, r) h2 h3]
    exact ⟨rfl, interactive_not_mem_silentCalls env accountID 0⟩
  · intro h hp
    subst hp
    rw [authenticate_gate_noprompt env accountID (silent_not_ready env accountID h)]

/-- C1 witness: the silent-error case at envC1 and the uniform no-prompt
fallback at envC4. -/
theorem c1_amended_witness :
    ((authenticate envC1 (some "id1") true).result = some (wrapAuthResult silentErrResult) ∧
      ProviderCall.signInInteractively 0 ∉ (authenticate envC1 (some "id1") true).calls) ∧
    (authenticate envC4 none false).result = some interactionRequiredResult :=
  ⟨(c1_amended_silent_gate envC1 (some "id1") true).1 acct1 5 silentErrResult
      (by decide) rfl (by decide),
   (c1_amended_silent_gate envC4 none false).2 (Or.inl rfl) rfl⟩

/-- C6 (counterexample): with allowPrompt false, a silent attempt that
completes within the deadline carrying a failure outcome is returned as that
failure — not as the InteractionRequired error the claim requires for every
way the silent path can fail to satisfy the request. -/
theorem c6_silent_failure_not_gated_counterexample :
    (authenticate envC1 (some "id1") false).result = some (wrapAuthResult silentErrResult) ∧
    wrapAuthResult silentErrResult ≠ interactionRequiredResult := by
  decide

/-- C6 (amended): when the silent cell is left unfilled within the deadline
(empty hint, unmatched hint, no silent callback, or a callback only after the
deadline) and allowPrompt is false, Authenticate returns immediately the fixed
InteractionRequired error and makes no interactive provider call; with an empty
hint it makes no provider call at all and returns at time 0.  (The claim's
remaining case — a silent failure outcome delivered within the deadline — is
instead returned directly to the caller, see the counterexample.) -/
theorem c6_amended_interaction_required (env : Env) (accountID : Option String)
    (h : silentAccount env accountID = none ∨ env.silentFire = none ∨
         (∀ d r, env.silentFire = some (d, r) → timeoutSeconds < d)) :
    (authenticate env accountID false).result = some interactionRequiredResult ∧
    interactionRequiredResult.errorDescription = some interactionRequiredMessage ∧
    interactionRequiredResult.token = none ∧
    (authenticate env accountID false).returnTime = some (silentWaitEnd env accountID) ∧
    (∀ c, ProviderCall.signInInteractively c ∉ (authenticate env accountID false).calls) ∧
    ((accountID = none ∨ accountID = some "") →
      (authenticate env accountID false).calls = [] ∧
      (authenticate env accountID false).returnTime = some 0) := by
  rw [authenticate_gate_noprompt env accountID (silent_not_ready env accountID h)]
  refine ⟨rfl, rfl, rfl, rfl, ?_, ?_⟩
  · exact fun c => interactive_not_mem_silentCalls env accountID c
  · rintro (rfl | rfl)
    · exact ⟨rfl, rfl⟩
    · have hlen : ¬ 0 < ("" : String).length := by decide
      constructor
      · simp [silentCalls, hlen]
      · have hsa : silentAccount env (some "") = none := by
          simp [silentAccount, hlen]
        simp [silentWaitEnd, hsa]

/-- C6 witness: the empty-hint, prompt-disallowed request at envC4. -/
theorem c6_amended_witness :
    (authenticate envC4 none false).result = some interactionRequiredResult ∧
    (authenticate envC4 none false).calls = [] ∧
    (authenticate envC4 none false).returnTime = some 0 :=
  ⟨(c6_amended_interaction_required envC4 none (Or.inl rfl)).1,
   ((c6_amended_interaction_required envC4 none (Or.inl rfl)).2.2.2.2.2 (Or.inl rfl)).1,
   ((c6_amended_interaction_required envC4 none (Or.inl rfl)).2.2.2.2.2 (Or.inl rfl)).2⟩

/-- C2 (evaluated at the failing input): an Authenticate call that succeeds via
the interactive path returns the credential and the account identifier, yet its
complete provider-call trace is just the interactive sign-in — no
account-association call is ever issued before returning, so a later
ListAccounts sees no azd association for this account. -/
theorem c2_no_association_after_interactive_success :
    (authenticate envC2 none true).result =
      some ⟨some "id1", none, 1700000100, some "tok2"⟩ ∧
    (authenticate envC2 none true).calls = [ProviderCall.signInInteractively 0] ∧
    ∀ a : Account, ProviderCall.associateAccount a ∉ (authenticate envC2 none true).calls := by
  refine ⟨by decide, by decide, ?_⟩
  intro a ha
  have hc : (authenticate envC2 none true).calls = [ProviderCall.signInInteractively 0] := by
    decide
  rw [hc] at ha
  simp at ha

theorem authenticate_calls_cases (env : Env) (accountID : Option String)
    (allowPrompt : Bool) :
    (authenticate env accountID allowPrompt).calls = silentCalls env accountID ∨
    (authenticate env accountID allowPrompt).calls = interactiveCalls env accountID := by
  unfold authenticate interactivePhase
  split
  · split <;> exact Or.inl rfl
  · split
    · exact Or.inl rfl
    · split
      · exact Or.inr rfl
      · exact Or.inr rfl
      · split <;> exact Or.inr rfl

theorem authenticate_completions_cases (env : Env) (accountID : Option String)
    (allowPrompt : Bool) :
    (authenticate env accountID allowPrompt).cellCompletions =
      (silentFires env accountID).length ∨
    (authenticate env accountID allowPrompt).cellCompletions =
      (allFires env accountID).length := by
  unfold authenticate interactivePhase
  split
  · split <;> exact Or.inl rfl
  · split
    · exact Or.inl rfl
    · split
      · exact Or.inr rfl
      · exact Or.inr rfl
      · split <;> exact Or.inr rfl

theorem silentFires_length_le (env : Env) (accountID : Option String) :
    (silentFires env accountID).length ≤ 1 := by
  unfold silentFires
  cases silentAccount env accountID <;> cases env.silentFire <;> simp

theorem allFires_length_le (env : Env) (accountID : Option String) :
    (allFires env accountID).length ≤ 2 := by
  unfold allFires
  rw [List.length_append]
  have h1 := silentFires_length_le env accountID
  cases env.interactiveFire <;> simp <;> omega

theorem silentCalls_silent_cell (env : Env) (accountID : Option String) :
    ∀ a c, ProviderCall.acquireCredentialSilently a c ∈ silentCalls env accountID →
      c = 0 := by
  intro a c h
  cases accountID with
  | none => simp [silentCalls] at h
  | some s =>
    simp only [silentCalls] at h
    by_cases hl : 0 < s.length
    · rw [if_pos hl] at h
      cases hr : env.readAccountById s with
      | none =>
        rw [hr] at h
        simp at h
      | some a0 =>
        rw [hr] at h
        simp at h
        exact h.2
    · rw [if_neg hl] at h
      simp at h

/-- C3 (counterexample): the interactive sign-in is bound to the same single
cell (cell 0) as the silent attempt — not to a fresh, distinct ResultCell —
and when the late silent callback and the interactive callback both fire, that
shared cell is completed twice; moreover the outcome the interactive phase
delivers is the late silent result, the earlier of the two completions. -/
theorem c3_shared_cell_counterexample :
    ProviderCall.acquireCredentialSilently acct1 0 ∈
      (authenticate envC3 (some "id1") true).calls ∧
    ProviderCall.signInInteractively 0 ∈ (authenticate envC3 (some "id1") true).calls ∧
    (authenticate envC3 (some "id1") true).cellCompletions = 2 ∧
    (authenticate envC3 (some "id1") true).result = some (wrapAuthResult lateSilentResult) := by
  decide

/-- C3 (amended): every callback-taking provider call of Authenticate is bound
to the one shared cell 0 rather than the interactive attempt getting a fresh
cell; the cell is completed at most once whenever at most one of the two
callbacks ever fires, and at most twice in general — the double completion
being reachable exactly when a late silent callback races the interactive one
(see the counterexample). -/
theorem c3_amended_shared_cell (env : Env) (accountID : Option String)
    (allowPrompt : Bool) :
    (∀ a c, ProviderCall.acquireCredentialSilently a c ∈
        (authenticate env accountID allowPrompt).calls → c = 0) ∧
    (∀ c, ProviderCall.signInInteractively c ∈
        (authenticate env accountID allowPrompt).calls → c = 0) ∧
    (authenticate env accountID allowPrompt).cellCompletions ≤ 2 ∧
    ((env.silentFire = none ∨ env.interactiveFire = none) →
      (authenticate env accountID allowPrompt).cellCompletions ≤ 1) := by
  have hcalls := authenticate_calls_cases env accountID allowPrompt
  have hcomp := authenticate_completions_cases env accountID allowPrompt
  refine ⟨?_, ?_, ?_, ?_⟩
  · intro a c h
    rcases hcalls with hc | hc
    · rw [hc] at h
      exact silentCalls_silent_cell env accountID a c h
    · rw [hc] at h
      unfold interactiveCalls at h
      rcases List.mem_append.mp h with h | h
      · exact silentCalls_silent_cell env accountID a c h
      · simp at h
  · intro c h
    rcases hcalls with hc | hc
    · rw [hc] at h
      exact absurd h (interactive_not_mem_silentCalls env accountID c)
    · rw [hc] at h
      unfold interactiveCalls at h
      rcases List.mem_append.mp h with h | h
      · exact absurd h (interactive_not_mem_silentCalls env accountID c)
      · simpa using h
  · rcases hcomp with hc | hc <;> rw [hc]
    · exact Nat.le_trans (silentFires_length_le env accountID) (by omega)
    · exact allFires_length_le env accountID
  · intro hone
    have hs := silentFires_length_le env accountID
    have hall : (allFires env accountID).length ≤ 1 := by
      unfold allFires
      rw [List.length_append]
      rcases hone with hnone | hnone
      · have hnil : silentFires env accountID = [] := by
          unfold silentFires
          rw [hnone]
          cases silentAccount env accountID <;> rfl
        rw [hnil]
        cases env.interactiveFire <;> simp
      · rw [hnone]
        simpa using hs
    rcases hcomp with hc | hc <;> rw [hc]
    · exact hs
    · exact hall

/-- C3 witness: a run with no silent callback completes the cell at most once,
and its interactive call is bound to cell 0. -/
theorem c3_amended_witness :
    (authenticate envC2 none true).cellCompletions ≤ 1 ∧
    (∀ c, ProviderCall.signInInteractively c ∈ (authenticate envC2 none true).calls →
      c = 0) :=
  ⟨(c3_amended_shared_cell envC2 none true).2.2.2 (Or.inl rfl),
   (c3_amended_shared_cell envC2 none true).2.1⟩

/-- C4 (counterexample): the interactive phase re-checks its deadline only
after GetMessage delivers a host message, so with a single message arriving
1000 seconds after the phase starts the caller is blocked 1000 seconds —
far beyond the fixed 60-second deadline the claim asserts. -/
theorem c4_deadline_exceeded_counterexample :
    (authenticate envC4 none true).interactiveStart = some 0 ∧
    (authenticate envC4 none true).returnTime = some 1000 ∧
    (authenticate envC4 none true).result = some loginTimeoutResult ∧
    ¬ (1000 ≤ 0 + timeoutSeconds) := by
  decide

/-- C4 (amended): the interactive phase's deadline is only evaluated after each
serviced host message, so the phase can block past the 60-second budget (even
indefinitely if no message ever arrives); whenever the phase does return, it
yields exactly one outcome — either the Timeout outcome, and then at least the
60-second budget has elapsed since the phase's own start, or the completed
value of the cell (which may be a success or a provider error) — never both,
the timeout branch taking precedence. -/
theorem c4_amended_interactive_phase (env : Env) (accountID : Option String)
    (allowPrompt : Bool) (t0 : Nat) (w : WrappedAuthResult)
    (hs : (authenticate env accountID allowPrompt).interactiveStart = some t0)
    (hr : (authenticate env accountID allowPrompt).result = some w) :
    ∃ t, (authenticate env accountID allowPrompt).returnTime = some t ∧
      (((authenticate env accountID allowPrompt).timedOut = true ∧
          w = loginTimeoutResult ∧ t0 + timeoutSeconds ≤ t) ∨
       ((authenticate env accountID allowPrompt).timedOut = false ∧
          cellReadyAt (allFires env accountID) t = true ∧
          ∃ f, firstFire (allFires env accountID) = some f ∧
            w = wrapAuthResult f.2)) := by
  by_cases hready : cellReadyAt (silentFires env accountID) (silentWaitEnd env accountID) = true
  · exfalso
    rcases firstFire_isSome hready with ⟨f, hf⟩
    rw [authenticate_ready env accountID allowPrompt f hready hf] at hs
    simp at hs
  · rw [Bool.not_eq_true] at hready
    cases allowPrompt with
    | false =>
      exfalso
      rw [authenticate_gate_noprompt env accountID hready] at hs
      simp at hs
    | true =>
      rw [authenticate_interactive env accountID hready] at hs hr ⊢
      unfold interactivePhase at hs hr ⊢
      cases hpump : pumpLoop (allFires env accountID) (silentWaitEnd env accountID)
          (env.messages.map (fun m => silentWaitEnd env accountID + m))
          (silentWaitEnd env accountID)
          (cellReadyAt (allFires env accountID) (silentWaitEnd env accountID)) false with
      | none =>
        rw [hpump] at hr
        simp at hr
      | some rt =>
        obtain ⟨res, t⟩ := rt
        have hspec := pumpLoop_sound (allFires env accountID) (silentWaitEnd env accountID)
          (env.messages.map (fun m => silentWaitEnd env accountID + m))
          (silentWaitEnd env accountID) false (by simp) res t hpump
        cases res with
        | true =>
          rw [hpump] at hs hr
          dsimp only at hs hr ⊢
          have ht0 : silentWaitEnd env accountID = t0 := by
            simpa using hs
          have hw : w = loginTimeoutResult := by
            simpa using hr.symm
          refine ⟨t, rfl, Or.inl ⟨rfl, hw, ?_⟩⟩
          rw [← ht0]
          exact hspec.1 rfl
        | false =>
          have hcell : cellReadyAt (allFires env accountID) t = true := hspec.2 rfl
          rcases firstFire_isSome hcell with ⟨f, hf⟩
          rw [hpump] at hs hr
          dsimp only at hs hr ⊢
          rw [hf] at hs hr ⊢
          dsimp only at hs hr ⊢
          have hw : w = wrapAuthResult f.2 := by
            simpa using hr.symm
          exact ⟨t, rfl, Or.inr ⟨rfl, hcell, f, rfl, hw⟩⟩

/-- C4 witness: a run whose interactive callback fires at 3 seconds and whose
message arrives at 5 seconds returns the completed outcome. -/
theorem c4_amended_witness :
    ∃ t, (authenticate envC2 none true).returnTime = some t ∧
      (((authenticate envC2 none true).timedOut = true ∧
          wrapAuthResult interactiveSuccessResult = loginTimeoutResult ∧
          0 + timeoutSeconds ≤ t) ∨
       ((authenticate envC2 none true).timedOut = false ∧
          cellReadyAt (allFires envC2 none) t = true ∧
          ∃ f, firstFire (allFires envC2 none) = some f ∧
            wrapAuthResult interactiveSuccessResult = wrapAuthResult f.2)) :=
  c4_amended_interactive_phase envC2 none true 0 (wrapAuthResult interactiveSuccessResult)
    (by decide) (by decide)

/-- C5: under the provider interface invariant that every delivered AuthResult
is itself consistent (exactly one of credential or error, an account only
alongside a credential), every outcome Authenticate returns is consistent —
exactly one of token or errorDescription present, an account id only alongside
a token — and the timeout branch returns exactly the fixed timeout message
with no token and no account id. -/
theorem c5_outcome_consistency (env : Env) (accountID : Option String)
    (allowPrompt : Bool) (w : WrappedAuthResult)
    (hc : ∀ r ∈ envResults env, consistentResult r)
    (hr : (authenticate env accountID allowPrompt).result = some w) :
    consistentWrapped w ∧
    ((authenticate env accountID allowPrompt).timedOut = true →
      w.errorDescription = some loginTimeoutMessage ∧ w.token = none ∧
      w.accountID = none) := by
  by_cases hready : cellReadyAt (silentFires env accountID) (silentWaitEnd env accountID) = true
  · rcases firstFire_isSome hready with ⟨f, hf⟩
    rw [authenticate_ready env accountID allowPrompt f hready hf] at hr ⊢
    have hw : w = wrapAuthResult f.2 := by
      simpa using hr.symm
    subst hw
    refine ⟨?_, ?_⟩
    · exact wrapAuthResult_consistent
        (hc f.2 (mem_allFires_results (mem_silentFires_allFires (firstFire_mem hf))))
    · intro hcon
      simp at hcon
  · rw [Bool.not_eq_true] at hready
    cases allowPrompt with
    | false =>
      rw [authenticate_gate_noprompt env accountID hready] at hr ⊢
      have hw : w = interactionRequiredResult := by
        simpa using hr.symm
      subst hw
      refine ⟨by decide, ?_⟩
      intro hcon
      simp at hcon
    | true =>
      rw [authenticate_interactive env accountID hready] at hr ⊢
      unfold interactivePhase at hr ⊢
      cases hpump : pumpLoop (allFires env accountID) (silentWaitEnd env accountID)
          (env.messages.map (fun m => silentWaitEnd env accountID + m))
          (silentWaitEnd env accountID)
          (cellReadyAt (allFires env accountID) (silentWaitEnd env accountID)) false with
      | none =>
        rw [hpump] at hr
        simp at hr
      | some rt =>
        obtain ⟨res, t⟩ := rt
        cases res with
        | true =>
          rw [hpump] at hr
          dsimp only at hr ⊢
          have hw : w = loginTimeoutResult := by
            simpa using hr.symm
          subst hw
          exact ⟨by decide, fun _ => ⟨rfl, rfl, rfl⟩⟩
        | false =>
          have hspec := pumpLoop_sound (allFires env accountID) (silentWaitEnd env accountID)
            (env.messages.map (fun m => silentWaitEnd env accountID + m))
            (silentWaitEnd env accountID) false (by simp) false t hpump
          rcases firstFire_isSome (hspec.2 rfl) with ⟨f, hf⟩
          rw [hpump] at hr
          dsimp only at hr ⊢
          rw [hf] at hr ⊢
          dsimp only at hr ⊢
          have hw : w = wrapAuthResult f.2 := by
            simpa using hr.symm
          subst hw
          refine ⟨?_, ?_⟩
          · exact wrapAuthResult_consistent
              (hc f.2 (mem_allFires_results (firstFire_mem hf)))
          · intro hcon
            simp at hcon

/-- C5 witness: the consistent interactive success at envC2. -/
theorem c5_outcome_consistency_witness :
    consistentWrapped (wrapAuthResult interactiveSuccessResult) ∧
    ((authenticate envC2 none true).timedOut = true →
      (wrapAuthResult interactiveSuccessResult).errorDescription =
        some loginTimeoutMessage ∧
      (wrapAuthResult interactiveSuccessResult).token = none ∧
      (wrapAuthResult interactiveSuccessResult).accountID = none) :=
  c5_outcome_consistency envC2 none true (wrapAuthResult interactiveSuccessResult)
    (by decide) (by decide)

end OneAuthBridge
